import Mathlib

/-!
# Octopus graph component (`web/app/js/components/Octopus.jsx`)

A shallow embedding of the data shaping (`getNeighborDisplayData`), the arrow
geometry (`renderArrowCol`), the title (`linkedResourceTitle`) and the
orchestration (`render`) of the Octopus React component, followed by the
properties proved about them.

Modelling conventions.
* JavaScript numbers are the rationals: every number the component computes
  is a small dyadic rational (halves of integers, multiples of 90), and a
  success rate is only ever compared, so the model is exact away from `NaN`.
* A JavaScript object is the record of its own keys: each attribute the
  component reads is an `Attr`, absent or present with a value, and the other
  own keys are listed by name. Reading an attribute gives a `JsOpt`:
  `undefined` (also when the key is absent), `null`, or a proper value.
* The progress bar of a card is given the double product
  `resource.successRate * 100`; the card records its operand, the product is
  not computed.
* A React element is the record of what was passed to it; a `null` child is
  a child that is not there.
-/

namespace Octopus

/-! ## JavaScript values -/

/-- A value read from an attribute: `undefined`, `null`, or a proper value. -/
inductive JsOpt (α : Type) where
  | undefined : JsOpt α
  | null : JsOpt α
  | val (v : α) : JsOpt α
deriving DecidableEq, Repr

/-- The lodash predicate `_.isNil`: the value is `null` or `undefined`. -/
def isNil {α : Type} : JsOpt α → Bool
  | .undefined => true
  | .null => true
  | .val _ => false

/-- An own key of an object: absent, or present with its value; a key may be
present with the value `undefined`. -/
inductive Attr (α : Type) where
  | absent : Attr α
  | present (value : JsOpt α) : Attr α
deriving DecidableEq, Repr

/-- The property access `object.key`: `undefined` when the key is absent. -/
def Attr.read {α : Type} : Attr α → JsOpt α
  | .absent => .undefined
  | .present value => value

/-- The `latency` attribute of a resource. -/
structure Latency where
  P99 : Attr ℚ
deriving DecidableEq, Repr

/-- The attributes the component reads from a resource object; each may be
absent. -/
structure ResourceAttrs where
  name : Attr String
  «namespace» : Attr String
  successRate : Attr ℚ
  requestRate : Attr ℚ
  latency : Attr Latency
deriving DecidableEq, Repr

/-- An object handed to the component, as the `resource` prop or as an entry
of `neighbors.upstream` / `neighbors.downstream`: `renderResourceCard` reads
its own attributes, and `getNeighborDisplayData` sorts by the path
`resource.successRate`, that is by an attribute of its `resource` attribute.
`otherKeys` are the names of the own keys the component does not read (such
as `type`). -/
structure Resource extends ResourceAttrs where
  resource : Attr ResourceAttrs
  otherKeys : List String
deriving DecidableEq, Repr

/-- The `neighbors` prop. -/
structure Neighbors where
  upstream : JsOpt (List Resource)
  downstream : JsOpt (List Resource)
deriving DecidableEq, Repr

/-- The props of the component. -/
structure Props where
  neighbors : Neighbors
  resource : Resource
  unmeshedSources : List Resource
deriving DecidableEq, Repr

/-- The object `{}`: no own key at all. -/
def emptyResource : Resource :=
  { name := .absent, «namespace» := .absent, successRate := .absent,
    requestRate := .absent, latency := .absent, resource := .absent, otherKeys := [] }

/-- The `static defaultProps` of the component. -/
def defaultProps : Props :=
  { neighbors := { upstream := .undefined, downstream := .undefined },
    resource := emptyResource,
    unmeshedSources := [] }

/-- The lodash predicate `_.isEmpty` on a resource object: it has no own
key. A key that is present counts whatever its value, `undefined` included. -/
def isEmptyResource (r : Resource) : Bool :=
  r.name = .absent && r.«namespace» = .absent && r.successRate = .absent &&
    r.requestRate = .absent && r.latency = .absent && r.resource = .absent &&
    r.otherKeys.isEmpty

/-- The lodash predicate `_.isEmpty` on an array. -/
def isEmpty {α : Type} (xs : List α) : Bool :=
  xs.isEmpty

/-- The lodash function `_.size` on an array. -/
def size {α : Type} (xs : List α) : ℕ :=
  xs.length

/-- The lodash function `_.take(array, n)`. -/
def take {α : Type} (xs : List α) (n : ℕ) : List α :=
  List.take n xs

/-- The lodash function `_.slice(array, start, end)`: the entries from `start`
up to, not including, `end`. -/
def slice {α : Type} (xs : List α) (start stop : ℕ) : List α :=
  List.drop start (List.take stop xs)

/-! ## `_.sortBy` -/

/-- The JavaScript relational `value > other` on a number, `null` or
`undefined`: `null` converts to `0`, `undefined` to `NaN`, and a comparison
with `NaN` is false. -/
def jsGt : JsOpt ℚ → JsOpt ℚ → Bool
  | .undefined, _ => false
  | _, .undefined => false
  | .null, .null => false
  | .null, .val b => decide (0 > b)
  | .val a, .null => decide (a > 0)
  | .val a, .val b => decide (a > b)

/-- The JavaScript relational `value < other`. -/
def jsLt (value other : JsOpt ℚ) : Bool :=
  jsGt other value

/-- The lodash comparator `compareAscending(value, other)`, on numbers, `null`
and `undefined` (no symbol, no `NaN`, so `isSymbol` is false and every value
is reflexive): numbers ascending, then `null`, then `undefined`. -/
def compareAscending (value other : JsOpt ℚ) : ℤ :=
  if value ≠ other then
    let valIsDefined := decide (value ≠ .undefined)
    let valIsNull := decide (value = .null)
    let othIsDefined := decide (other ≠ .undefined)
    let othIsNull := decide (other = .null)
    if (!othIsNull && jsGt value other) || (valIsNull && othIsDefined) || !valIsDefined then
      1
    else if (!valIsNull && jsLt value other) || (othIsNull && valIsDefined) || !othIsDefined then
      -1
    else
      0
  else
    0

/-- What `baseOrderBy` sorts: the sort key of an entry, its position in the
input, and the entry. -/
structure SortEntry (α : Type) where
  criteria : JsOpt ℚ
  index : ℕ
  value : α

/-- The lodash comparator `compareMultiple` for one sort key and no explicit
order: the keys decide, and equal keys fall back on the input positions,
which is what makes `_.sortBy` stable. -/
def compareMultiple {α : Type} (object other : SortEntry α) : ℤ :=
  let result := compareAscending object.criteria other.criteria
  if result ≠ 0 then result else (object.index : ℤ) - (other.index : ℤ)

/-- The order `Array.prototype.sort` is run with: `object` may stand before
`other` when the comparator is not positive. -/
def sortLe {α : Type} (object other : SortEntry α) : Prop :=
  compareMultiple object other ≤ 0

instance {α : Type} : DecidableRel (sortLe (α := α)) :=
  fun a b => inferInstanceAs (Decidable (compareMultiple a b ≤ 0))

/-- The `index`-tagged entries `baseOrderBy` builds from the collection. -/
def sortEntries {α : Type} (iteratee : α → JsOpt ℚ) : List α → ℕ → List (SortEntry α)
  | [], _ => []
  | x :: xs, i => { criteria := iteratee x, index := i, value := x } :: sortEntries iteratee xs (i + 1)

/-- The lodash function `_.sortBy(collection, iteratee)`: a missing
collection gives `[]`; otherwise the entries are tagged with key and index,
sorted with `compareMultiple` and untagged. The comparator is a strict total
order on the tagged entries (indices differ), so the result does not depend
on the sorting algorithm; insertion sort stands for `Array.prototype.sort`. -/
def sortBy {α : Type} (collection : JsOpt (List α)) (iteratee : α → JsOpt ℚ) : List α :=
  match collection with
  | .val xs => ((sortEntries iteratee xs 0).insertionSort sortLe).map SortEntry.value
  | _ => []

/-- The property path `"resource.successRate"` (lodash `_.get` semantics:
`undefined` as soon as a step of the path is `null` or missing). -/
def resourceSuccessRate (n : Resource) : JsOpt ℚ :=
  match n.resource.read with
  | .val r => r.successRate.read
  | _ => .undefined

/-! ## `getNeighborDisplayData` -/

/-- Max number of neighbor nodes to show in the octopus graph. -/
def maxNumNeighbors : ℕ := 6

/-- One side of the display plan. -/
structure DisplaySide where
  displayed : List Resource
  collapsed : List Resource
deriving DecidableEq, Repr

/-- The display plan. -/
structure Display where
  upstreams : DisplaySide
  downstreams : DisplaySide
deriving DecidableEq, Repr

/-- The method `getNeighborDisplayData`. -/
def getNeighborDisplayData (neighbors : Neighbors) : Display :=
  let upstreams := sortBy neighbors.upstream resourceSuccessRate
  let downstreams := sortBy neighbors.downstream resourceSuccessRate
  let display : Display :=
    { upstreams := { displayed := upstreams, collapsed := [] },
      downstreams := { displayed := downstreams, collapsed := [] } }
  let display : Display :=
    if size upstreams > maxNumNeighbors then
      { display with
        upstreams :=
          { displayed := take upstreams maxNumNeighbors,
            collapsed := slice upstreams maxNumNeighbors (size upstreams) } }
    else display
  let display : Display :=
    if size downstreams > maxNumNeighbors then
      { display with
        downstreams :=
          { displayed := take downstreams maxNumNeighbors,
            collapsed := slice downstreams maxNumNeighbors (size downstreams) } }
    else display
  display

/-! ## `linkedResourceTitle` and the cards -/

/-- The helpers the component imports from `./util/Utils.js` and
`./util/MetricUtils.jsx`; their code is not part of this file, so they are
parameters of the rendering functions. -/
structure Utils where
  displayName : Resource → String
  metricToFormatter : String → JsOpt ℚ → String
  getSuccessRateClassification : JsOpt ℚ → String

/-- What `linkedResourceTitle` returns: the display string itself, or the
element `<ResourceLink resource=... linkText=... />`. -/
inductive Title where
  | text (display : String) : Title
  | resourceLink (resource : Resource) (linkText : String) : Title
deriving DecidableEq, Repr

/-- The method `linkedResourceTitle`. -/
def linkedResourceTitle (resource : Resource) (display : String) : Title :=
  if isNil resource.«namespace».read then .text display
  else .resourceLink resource display

/-- The lodash lookup `_.get(resource, "latency.P99")`. -/
def latencyP99 (resource : Resource) : JsOpt ℚ :=
  match resource.latency.read with
  | .val l => l.P99.read
  | _ => .undefined

/-- The element `renderResourceCard` returns. `progressOf` is the operand of
the product `resource.successRate * 100` the progress bar is given. -/
structure Card where
  key : JsOpt String
  className : String
  title : String
  variant : String
  heading : Title
  classification : String
  progressOf : JsOpt ℚ
  rps : String
  p99 : String
deriving DecidableEq, Repr

/-- The method `renderResourceCard`. -/
def renderResourceCard (u : Utils) (resource : Resource) (type : String) : Card :=
  let display := u.displayName resource
  let classification := u.getSuccessRateClassification resource.successRate.read
  { key := resource.name.read,
    className := "octopus-body " ++ type,
    title := display,
    variant := if type = "neighbor" then "h6" else "h4",
    heading := linkedResourceTitle resource display,
    classification := classification,
    progressOf := resource.successRate.read,
    rps := u.metricToFormatter "NO_UNIT" resource.requestRate.read,
    p99 := u.metricToFormatter "LATENCY" (latencyP99 resource) }

/-- A block of a neighbor column: a resource card, the "Unmeshed" panel
(one line per display name), or the collapsed-neighbors panel (one titled
line per neighbor). -/
inductive Block where
  | card (c : Card) : Block
  | unmeshed (lines : List String) : Block
  | collapsed (lines : List (String × Title)) : Block
deriving DecidableEq, Repr

/-- The method `renderUnmeshedResources`. -/
def renderUnmeshedResources (u : Utils) (unmeshedResources : List Resource) : Block :=
  .unmeshed (unmeshedResources.map fun r => u.displayName r)

/-- The method `renderCollapsedNeighbors`. -/
def renderCollapsedNeighbors (u : Utils) (neighbors : List Resource) : Block :=
  .collapsed (neighbors.map fun r =>
    let display := u.displayName r
    (display, linkedResourceTitle r display))

/-! ## `renderArrowCol` -/

/-- The keys of `OctopusArms`. -/
inductive ArrowType where
  | up : ArrowType
  | down : ArrowType
  | flat : ArrowType
deriving DecidableEq, Repr

/-- An entry of the local `arrowTypes` of `renderArrowCol`. -/
structure Arrow where
  type : ArrowType
  inboundType : ArrowType
  height : ℚ
deriving DecidableEq, Repr

/-- The local `middleElementIndex` of `renderArrowCol`. -/
def middleElementIndex (numNeighbors : ℕ) : ℚ :=
  let isEven := numNeighbors % 2 = 0
  if isEven then ((numNeighbors : ℚ) - 1) / 2 else ((⌊(numNeighbors : ℚ) / 2⌋ : ℤ) : ℚ)

/-- The callback of `_.map(_.times(numNeighbors), i => ...)` in
`renderArrowCol`: the geometry of slot `i`. -/
def arrowAt (numNeighbors : ℕ) (i : ℕ) : Arrow :=
  let baseHeight : ℚ := 180
  let middleElementIndex := middleElementIndex numNeighbors
  if (i : ℚ) < middleElementIndex then
    let height := (((⌈middleElementIndex - (i : ℚ)⌉ : ℤ) : ℚ) - 1) * baseHeight + (baseHeight / 2)
    { type := .up, inboundType := .down, height := height }
  else if (i : ℚ) = middleElementIndex then
    { type := .flat, inboundType := .flat, height := baseHeight }
  else
    let height := (((⌈(i : ℚ) - middleElementIndex⌉ : ℤ) : ℚ) - 1) * baseHeight + (baseHeight / 2)
    { type := .down, inboundType := .up, height := height }

/-- The local `arrowTypes` of `renderArrowCol`. -/
def arrowTypes (numNeighbors : ℕ) : List Arrow :=
  (List.range numNeighbors).map fun i => arrowAt numNeighbors i

/-- One drawn arm: the call
`OctopusArms[arrowType](width, height, arrow.height, isOutbound)`. -/
structure Arm where
  arrowType : ArrowType
  width : ℚ
  height : ℚ
  arrowHeight : ℚ
  isOutbound : Bool
deriving DecidableEq, Repr

/-- The `<svg>` element of an arrow strip. -/
structure Svg where
  height : ℚ
  width : ℚ
  viewBox : ℚ × ℚ × ℚ × ℚ
  arms : List Arm
deriving DecidableEq, Repr

/-- The method `renderArrowCol`; `none` is the `null` it returns. -/
def renderArrowCol (numNeighbors : ℕ) (isOutbound : Bool) : Option Svg :=
  let baseHeight : ℚ := 180
  let width : ℚ := 75
  let showArrow := decide (numNeighbors > 0)
  let arrowTypes := arrowTypes numNeighbors
  let height := (numNeighbors : ℚ) * baseHeight
  let svg : Svg :=
    { height := height,
      width := width,
      viewBox := (0, 0, width, height),
      arms := arrowTypes.map fun arrow =>
        let arrowType := if isOutbound then arrow.type else arrow.inboundType
        { arrowType := arrowType, width := width, height := height,
          arrowHeight := arrow.height, isOutbound := isOutbound } }
  if !showArrow then none else some svg

/-- The arms an arrow column shows: those of the strip, none when there is
no strip. -/
def arms : Option Svg → List Arm
  | none => []
  | some svg => svg.arms

/-! ## `render` -/

/-- The local `numUpstreams` of `render`. -/
def numUpstreams (display : Display) (unmeshedSources : List Resource) : ℕ :=
  size display.upstreams.displayed + (if isEmpty unmeshedSources then 0 else 1) +
    (if isEmpty display.upstreams.collapsed then 0 else 1)

/-- The local `numDownstreams` of `render`. -/
def numDownstreams (display : Display) : ℕ :=
  size display.downstreams.displayed + (if isEmpty display.downstreams.collapsed then 0 else 1)

/-- A JSX child that may be `null`: `null` places nothing. -/
def child {α : Type} : Option α → List α
  | none => []
  | some x => [x]

/-- The tree `render` returns: the five columns of the `octopus-graph`. -/
structure Graph where
  upstreamClassName : String
  upstreamCol : List Block
  inboundArrows : Option Svg
  center : Card
  outboundArrows : Option Svg
  downstreamClassName : String
  downstreamCol : List Block
deriving DecidableEq, Repr

/-- The method `render`; `none` is the `null` it returns. -/
def render (u : Utils) (props : Props) : Option Graph :=
  let resource := props.resource
  let neighbors := props.neighbors
  let unmeshedSources := props.unmeshedSources
  if isEmptyResource resource then none
  else
    let display := getNeighborDisplayData neighbors
    let numUpstreams := numUpstreams display unmeshedSources
    let hasUpstreams := decide (numUpstreams > 0)
    let numDownstreams := numDownstreams display
    let hasDownstreams := decide (numDownstreams > 0)
    some
      { upstreamClassName := "octopus-col " ++ (if hasUpstreams then "resource-col" else ""),
        upstreamCol :=
          (display.upstreams.displayed.map fun n => Block.card (renderResourceCard u n "neighbor")) ++
          child (if isEmpty unmeshedSources then none
            else some (renderUnmeshedResources u unmeshedSources)) ++
          child (if isEmpty display.upstreams.collapsed then none
            else some (renderCollapsedNeighbors u display.upstreams.collapsed)),
        inboundArrows := renderArrowCol numUpstreams false,
        center := renderResourceCard u resource "main",
        outboundArrows := renderArrowCol numDownstreams true,
        downstreamClassName := "octopus-col " ++ (if hasDownstreams then "resource-col" else ""),
        downstreamCol :=
          (display.downstreams.displayed.map fun n => Block.card (renderResourceCard u n "neighbor")) ++
          child (if isEmpty display.downstreams.collapsed then none
            else some (renderCollapsedNeighbors u display.downstreams.collapsed)) }

/-! ## Auxiliary notions used in the statements -/

/-- The order of the sort keys: numbers ascending, then `null`, then `undefined`. -/
def keyLe : JsOpt ℚ → JsOpt ℚ → Prop
  | .val a, .val b => a ≤ b
  | .val _, _ => True
  | .null, .val _ => False
  | .null, _ => True
  | .undefined, .undefined => True
  | .undefined, _ => False

/-- The shape with "up" and "down" exchanged, "flat" kept. -/
def swapUpDown : ArrowType → ArrowType
  | .up => .down
  | .down => .up
  | .flat => .flat

/-- A resource with the given name and success rate, in the namespace
`default`: the object `{ name, namespace, successRate }`. -/
def neighborOf (name : String) (rate : ℚ) : Resource :=
  { name := .present (.val name), «namespace» := .present (.val "default"),
    successRate := .present (.val rate), requestRate := .absent, latency := .absent,
    resource := .absent, otherKeys := [] }

/-- Six neighbors. -/
def sixNeighbors : List Resource :=
  [neighborOf "a" 1, neighborOf "b" (1 / 2), neighborOf "c" (3 / 4),
   neighborOf "d" 0, neighborOf "e" 1, neighborOf "f" (1 / 4)]

/-- A seventh neighbor. -/
def seventhNeighbor : Resource := neighborOf "g" (1 / 8)

/-- Helpers to render with: the display name is the name of the resource and
a metric is shown as a dash. -/
def sampleUtils : Utils :=
  { displayName := fun r =>
      match r.name.read with
      | .val s => s
      | _ => "",
    metricToFormatter := fun _ _ => "---",
    getSuccessRateClassification := fun _ => "neutral" }

/-- Props with seven upstream neighbors, six downstream neighbors and one
unmeshed source. -/
def sampleProps : Props :=
  { neighbors := { upstream := .val (seventhNeighbor :: sixNeighbors),
                   downstream := .val sixNeighbors },
    resource := neighborOf "web" 1,
    unmeshedSources := [{ emptyResource with name := .present (.val "curl") }] }

/-! ## The sort comparator -/

theorem compareAscending_self (a : JsOpt ℚ) : compareAscending a a = 0 := by
  simp [compareAscending]

theorem compareAscending_val_val (a b : ℚ) :
    compareAscending (.val a) (.val b) = if a = b then 0 else if a > b then 1 else -1 := by
  simp only [compareAscending, jsGt, jsLt]
  rcases lt_trichotomy a b with h | h | h
  · have h1 : a ≠ b := ne_of_lt h
    have h2 : ¬ b < a := not_lt.mpr h.le
    simp [h1, h2, h]
  · simp [h]
  · have h1 : a ≠ b := ne_of_gt h
    simp [h1, h]

theorem compareAscending_le_iff (a b : JsOpt ℚ) :
    compareAscending a b ≤ 0 ↔ keyLe a b := by
  rcases a with _ | _ | a <;> rcases b with _ | _ | b
  case val.val =>
    rw [compareAscending_val_val]
    simp only [keyLe]
    split_ifs with h1 h2
    · simp [h1]
    · simp; exact h2
    · simp; exact not_lt.mp h2
  all_goals simp [compareAscending, jsGt, jsLt, keyLe]

theorem compareAscending_eq_zero_iff (a b : JsOpt ℚ) :
    compareAscending a b = 0 ↔ a = b := by
  rcases a with _ | _ | a <;> rcases b with _ | _ | b
  case val.val =>
    rw [compareAscending_val_val]
    split_ifs with h1 h2 <;> simp [h1]
  all_goals simp [compareAscending, jsGt, jsLt]

theorem keyLe_total (a b : JsOpt ℚ) : keyLe a b ∨ keyLe b a := by
  rcases a with _ | _ | a <;> rcases b with _ | _ | b <;> simp [keyLe]
  exact le_total a b

theorem keyLe_trans {a b c : JsOpt ℚ} (h1 : keyLe a b) (h2 : keyLe b c) : keyLe a c := by
  rcases a with _ | _ | a <;> rcases b with _ | _ | b <;> rcases c with _ | _ | c <;>
    simp_all [keyLe]
  exact le_trans h1 h2

theorem keyLe_antisymm {a b : JsOpt ℚ} (h1 : keyLe a b) (h2 : keyLe b a) : a = b := by
  rcases a with _ | _ | a <;> rcases b with _ | _ | b <;> simp_all [keyLe]
  exact le_antisymm h1 h2

/-! ## `_.sortBy` is a stable sort -/

theorem sortLe_iff {α : Type} (a b : SortEntry α) :
    sortLe a b ↔ (a.criteria ≠ b.criteria ∧ keyLe a.criteria b.criteria) ∨
      (a.criteria = b.criteria ∧ a.index ≤ b.index) := by
  unfold sortLe compareMultiple
  by_cases h : a.criteria = b.criteria
  · have h0 : compareAscending a.criteria b.criteria = 0 :=
      (compareAscending_eq_zero_iff _ _).mpr h
    rw [if_neg (by simp [h0]), ← h]
    simp [h]
  · have h0 : compareAscending a.criteria b.criteria ≠ 0 :=
      fun hc => h ((compareAscending_eq_zero_iff _ _).mp hc)
    simp [h0, h, compareAscending_le_iff]

theorem sortLe_total {α : Type} (a b : SortEntry α) : sortLe a b ∨ sortLe b a := by
  simp only [sortLe_iff]
  by_cases h : a.criteria = b.criteria
  · rcases le_total a.index b.index with hi | hi
    · exact Or.inl (Or.inr ⟨h, hi⟩)
    · exact Or.inr (Or.inr ⟨h.symm, hi⟩)
  · rcases keyLe_total a.criteria b.criteria with hk | hk
    · exact Or.inl (Or.inl ⟨h, hk⟩)
    · exact Or.inr (Or.inl ⟨fun hc => h hc.symm, hk⟩)

theorem sortLe_trans {α : Type} {a b c : SortEntry α} (h1 : sortLe a b) (h2 : sortLe b c) :
    sortLe a c := by
  simp only [sortLe_iff] at *
  rcases h1 with ⟨n1, k1⟩ | ⟨e1, i1⟩ <;> rcases h2 with ⟨n2, k2⟩ | ⟨e2, i2⟩
  · refine Or.inl ⟨fun hc => ?_, keyLe_trans k1 k2⟩
    rw [← hc] at k2
    exact n1 (keyLe_antisymm k1 k2)
  · rw [← e2]; exact Or.inl ⟨n1, k1⟩
  · rw [e1]; exact Or.inl ⟨n2, k2⟩
  · exact Or.inr ⟨e1.trans e2, le_trans i1 i2⟩

theorem sortLe_keyLe {α : Type} {a b : SortEntry α} (h : sortLe a b) :
    compareAscending a.criteria b.criteria ≤ 0 := by
  rw [compareAscending_le_iff]
  rcases (sortLe_iff a b).mp h with ⟨_, k⟩ | ⟨e, _⟩
  · exact k
  · rw [e]; rcases keyLe_total b.criteria b.criteria with h | h <;> exact h

theorem map_value_sortEntries {α : Type} (key : α → JsOpt ℚ) (xs : List α) (i : ℕ) :
    (sortEntries key xs i).map SortEntry.value = xs := by
  induction xs generalizing i with
  | nil => rfl
  | cons x xs ih => simp [sortEntries, ih]

theorem mem_sortEntries {α : Type} (key : α → JsOpt ℚ) (xs : List α) (i : ℕ)
    (e : SortEntry α) (he : e ∈ sortEntries key xs i) :
    e.criteria = key e.value ∧ i ≤ e.index := by
  induction xs generalizing i with
  | nil => simp [sortEntries] at he
  | cons x xs ih =>
    simp only [sortEntries, List.mem_cons] at he
    rcases he with rfl | he
    · exact ⟨rfl, le_refl _⟩
    · exact ⟨(ih (i + 1) he).1, by have := (ih (i + 1) he).2; omega⟩

theorem pairwise_index_sortEntries {α : Type} (key : α → JsOpt ℚ) (xs : List α) (i : ℕ) :
    (sortEntries key xs i).Pairwise (fun a b => a.index < b.index) := by
  induction xs generalizing i with
  | nil => simp [sortEntries]
  | cons x xs ih =>
    simp only [sortEntries, List.pairwise_cons]
    refine ⟨fun b hb => ?_, ih (i + 1)⟩
    have := (mem_sortEntries key xs (i + 1) b hb).2
    show i < b.index
    omega

theorem sortBy_perm {α : Type} (key : α → JsOpt ℚ) (xs : List α) :
    (sortBy (.val xs) key).Perm xs := by
  have h := (List.perm_insertionSort sortLe (sortEntries key xs 0)).map SortEntry.value
  rw [map_value_sortEntries] at h
  exact h

theorem sortBy_length {α : Type} (key : α → JsOpt ℚ) (xs : List α) :
    (sortBy (.val xs) key).length = xs.length :=
  (sortBy_perm key xs).length_eq

theorem sortBy_sorted {α : Type} (key : α → JsOpt ℚ) (xs : List α) :
    (sortBy (.val xs) key).Pairwise (fun a b => compareAscending (key a) (key b) ≤ 0) := by
  haveI : IsTotal (SortEntry α) sortLe := ⟨sortLe_total⟩
  haveI : IsTrans (SortEntry α) sortLe := ⟨fun _ _ _ => sortLe_trans⟩
  have hs : ((sortEntries key xs 0).insertionSort sortLe).Pairwise sortLe :=
    List.sorted_insertionSort sortLe _
  have hm : ∀ e ∈ (sortEntries key xs 0).insertionSort sortLe, e.criteria = key e.value :=
    fun e he => (mem_sortEntries key xs 0 e ((List.mem_insertionSort sortLe).mp he)).1
  show (((sortEntries key xs 0).insertionSort sortLe).map SortEntry.value).Pairwise _
  rw [List.pairwise_map]
  refine (List.Pairwise.and_mem.mp hs).imp ?_
  rintro a b ⟨ha, hb, hab⟩
  rw [← hm a ha, ← hm b hb]
  exact sortLe_keyLe hab

theorem filter_sortEntries {α : Type} (key : α → JsOpt ℚ) (k : JsOpt ℚ) (xs : List α) (i : ℕ) :
    ((sortEntries key xs i).filter (fun e => decide (e.criteria = k))).map SortEntry.value =
      xs.filter (fun x => decide (key x = k)) := by
  induction xs generalizing i with
  | nil => rfl
  | cons x xs ih =>
    by_cases h : key x = k <;> simp [sortEntries, List.filter_cons, h, ih]

theorem sortBy_stable {α : Type} (key : α → JsOpt ℚ) (xs : List α) (k : JsOpt ℚ) :
    (sortBy (.val xs) key).filter (fun x => decide (key x = k)) =
      xs.filter (fun x => decide (key x = k)) := by
  have hpw : ((sortEntries key xs 0).filter (fun e => decide (e.criteria = k))).Pairwise sortLe := by
    have h := List.Pairwise.and_mem.mp ((pairwise_index_sortEntries key xs 0).filter
      (fun e => decide (e.criteria = k)))
    refine h.imp ?_
    rintro a b ⟨ha, hb, hab⟩
    have ha2 := (List.mem_filter.mp ha).2
    have hb2 := (List.mem_filter.mp hb).2
    simp only [decide_eq_true_eq] at ha2 hb2
    exact (sortLe_iff a b).mpr (Or.inr ⟨ha2.trans hb2.symm, hab.le⟩)
  have hsub := (List.sublist_insertionSort hpw (List.filter_sublist _)).map SortEntry.value
  rw [filter_sortEntries] at hsub
  have hsub2 := hsub.filter (fun x => decide (key x = k))
  rw [List.filter_filter] at hsub2
  simp only [Bool.and_self] at hsub2
  have hlen := ((sortBy_perm key xs).filter (fun x => decide (key x = k))).length_eq
  exact (hsub2.eq_of_length hlen.symm).symm

/-! ## The arrow geometry in closed form -/

theorem middleElementIndex_eq (n : ℕ) : middleElementIndex n = ((n : ℚ) - 1) / 2 := by
  unfold middleElementIndex
  by_cases h : n % 2 = 0
  · simp [h]
  · simp only [h, if_false]
    obtain ⟨k, rfl⟩ : ∃ k, n = 2 * k + 1 := ⟨n / 2, by omega⟩
    have hf : ⌊((2 * k + 1 : ℕ) : ℚ) / 2⌋ = (k : ℤ) := by
      rw [Int.floor_eq_iff]
      push_cast
      constructor <;> linarith
    rw [hf]
    push_cast
    ring

theorem arrowAt_even (k i : ℕ) :
    arrowAt (2 * k) i =
      if i < k then { type := .up, inboundType := .down, height := 180 * ((k : ℚ) - i) - 90 }
      else { type := .down, inboundType := .up, height := 180 * ((i : ℚ) - k) + 90 } := by
  unfold arrowAt
  simp only [middleElementIndex_eq]
  push_cast
  by_cases h : i < k
  · have hq : (i : ℚ) + 1 ≤ k := by exact_mod_cast h
    have h1 : (i : ℚ) < (2 * (k : ℚ) - 1) / 2 := by linarith
    have hc : ⌈(2 * (k : ℚ) - 1) / 2 - (i : ℚ)⌉ = (k : ℤ) - i := by
      rw [Int.ceil_eq_iff]
      push_cast
      constructor <;> linarith
    rw [if_pos h1, if_pos h, hc]
    push_cast
    congr 1
    ring
  · have hq : (k : ℚ) ≤ i := by exact_mod_cast not_lt.mp h
    have h1 : ¬ (i : ℚ) < (2 * (k : ℚ) - 1) / 2 := by
      intro hc; linarith
    have h2 : ¬ (i : ℚ) = (2 * (k : ℚ) - 1) / 2 := by
      intro hc
      have h3 : (2 * (i : ℚ) + 1) = 2 * k := by linarith
      have h4 : 2 * i + 1 = 2 * k := by exact_mod_cast h3
      omega
    have hc : ⌈(i : ℚ) - (2 * (k : ℚ) - 1) / 2⌉ = (i : ℤ) - k + 1 := by
      rw [Int.ceil_eq_iff]
      push_cast
      constructor <;> linarith
    rw [if_neg h1, if_neg h2, if_neg h, hc]
    push_cast
    congr 1
    ring

theorem arrowAt_odd (k i : ℕ) :
    arrowAt (2 * k + 1) i =
      if i < k then { type := .up, inboundType := .down, height := 180 * ((k : ℚ) - i) - 90 }
      else if i = k then { type := .flat, inboundType := .flat, height := 180 }
      else { type := .down, inboundType := .up, height := 180 * ((i : ℚ) - k) - 90 } := by
  unfold arrowAt
  simp only [middleElementIndex_eq]
  push_cast
  have hm : (2 * (k : ℚ) + 1 - 1) / 2 = k := by ring
  rw [hm]
  by_cases h : i < k
  · have h1 : (i : ℚ) < k := by exact_mod_cast h
    have hc : ⌈(k : ℚ) - (i : ℚ)⌉ = (k : ℤ) - i := by
      rw [Int.ceil_eq_iff]
      push_cast
      constructor <;> linarith
    rw [if_pos h1, if_pos h, hc]
    push_cast
    congr 1
    ring
  · have h1 : ¬ (i : ℚ) < k := by exact_mod_cast h
    rw [if_neg h1, if_neg h]
    by_cases h2 : i = k
    · have h3 : (i : ℚ) = k := by exact_mod_cast h2
      rw [if_pos h3, if_pos h2]
    · have h3 : ¬ (i : ℚ) = k := by exact_mod_cast h2
      have hc : ⌈(i : ℚ) - (k : ℚ)⌉ = (i : ℤ) - k := by
        rw [Int.ceil_eq_iff]
        push_cast
        constructor <;> linarith
      rw [if_neg h3, if_neg h2, hc]
      push_cast
      congr 1
      ring

theorem arrowTypes_getElem? (n i : ℕ) (hi : i < n) :
    (arrowTypes n)[i]? = some (arrowAt n i) := by
  simp [arrowTypes, List.getElem?_map, List.getElem?_range hi]

theorem arms_renderArrowCol (n : ℕ) (b : Bool) :
    arms (renderArrowCol n b) = (arrowTypes n).map fun a =>
      { arrowType := if b then a.type else a.inboundType, width := 75,
        height := (n : ℚ) * 180, arrowHeight := a.height, isOutbound := b } := by
  rcases Nat.eq_zero_or_pos n with h | h
  · subst h
    simp [renderArrowCol, arms, arrowTypes]
  · simp [renderArrowCol, arms, h]

theorem arms_getElem? (n i : ℕ) (b : Bool) (hi : i < n) :
    (arms (renderArrowCol n b))[i]? = some
      { arrowType := if b then (arrowAt n i).type else (arrowAt n i).inboundType, width := 75,
        height := (n : ℚ) * 180, arrowHeight := (arrowAt n i).height, isOutbound := b } := by
  rw [arms_renderArrowCol, List.getElem?_map, arrowTypes_getElem? n i hi]
  rfl

theorem arrowAt_flat_iff (n i : ℕ) :
    ((arrowAt n i).type = .flat ↔ n % 2 = 1 ∧ i = (n - 1) / 2) ∧
    ((arrowAt n i).inboundType = .flat ↔ n % 2 = 1 ∧ i = (n - 1) / 2) ∧
    ((arrowAt n i).type = .flat → (arrowAt n i).height = 180) := by
  rcases Nat.even_or_odd' n with ⟨k, rfl | rfl⟩
  · rw [arrowAt_even]
    split_ifs <;> simp
  · rw [arrowAt_odd]
    have hk : (2 * k + 1 - 1) / 2 = k := by omega
    rw [hk]
    split_ifs with h1 h2 <;> simp
    all_goals omega

/-! ## `getNeighborDisplayData` -/

theorem getNeighborDisplayData_upstreams (neighbors : Neighbors) :
    (getNeighborDisplayData neighbors).upstreams =
      { displayed := (sortBy neighbors.upstream resourceSuccessRate).take 6,
        collapsed := (sortBy neighbors.upstream resourceSuccessRate).drop 6 } := by
  unfold getNeighborDisplayData
  simp only [size, maxNumNeighbors, take, slice, gt_iff_lt]
  split_ifs with h1 h2 h2
  · simp
  · have h6 : (sortBy neighbors.upstream resourceSuccessRate).length ≤ 6 := not_lt.mp h2
    simp [List.take_of_length_le h6, List.drop_of_length_le h6]
  · simp
  · have h6 : (sortBy neighbors.upstream resourceSuccessRate).length ≤ 6 := not_lt.mp h2
    simp [List.take_of_length_le h6, List.drop_of_length_le h6]

theorem getNeighborDisplayData_downstreams (neighbors : Neighbors) :
    (getNeighborDisplayData neighbors).downstreams =
      { displayed := (sortBy neighbors.downstream resourceSuccessRate).take 6,
        collapsed := (sortBy neighbors.downstream resourceSuccessRate).drop 6 } := by
  unfold getNeighborDisplayData
  simp only [size, maxNumNeighbors, take, slice, gt_iff_lt]
  split_ifs with h1 h2 h2
  · simp
  · simp
  · have h6 : (sortBy neighbors.downstream resourceSuccessRate).length ≤ 6 := not_lt.mp h1
    simp [List.take_of_length_le h6, List.drop_of_length_le h6]
  · have h6 : (sortBy neighbors.downstream resourceSuccessRate).length ≤ 6 := not_lt.mp h1
    simp [List.take_of_length_le h6, List.drop_of_length_le h6]

theorem sortBy_of_key_undefined {α : Type} (key : α → JsOpt ℚ) (xs : List α)
    (h : ∀ x ∈ xs, key x = .undefined) : sortBy (.val xs) key = xs := by
  have hpw : (sortEntries key xs 0).Pairwise sortLe := by
    refine (List.Pairwise.and_mem.mp (pairwise_index_sortEntries key xs 0)).imp ?_
    rintro a b ⟨ha, hb, hab⟩
    have hca := (mem_sortEntries key xs 0 a ha).1
    have hcb := (mem_sortEntries key xs 0 b hb).1
    have hva : a.value ∈ xs := by
      rw [← map_value_sortEntries key xs 0]
      exact List.mem_map_of_mem _ ha
    have hvb : b.value ∈ xs := by
      rw [← map_value_sortEntries key xs 0]
      exact List.mem_map_of_mem _ hb
    refine (sortLe_iff a b).mpr (Or.inr ⟨?_, hab.le⟩)
    rw [hca, hcb, h _ hva, h _ hvb]
  show ((sortEntries key xs 0).insertionSort sortLe).map SortEntry.value = xs
  rw [List.Sorted.insertionSort_eq hpw, map_value_sortEntries]

theorem resourceSuccessRate_of_absent (n : Resource) (h : n.resource = .absent) :
    resourceSuccessRate n = .undefined := by
  simp [resourceSuccessRate, h, Attr.read]

/-- The sort key of `getNeighborDisplayData` is read at the path
`resource.successRate` of an entry, while the cards read the entry's own
`successRate`. On entries that are plain resources, without a `resource`
attribute, every key is `undefined` and the entries stay in input order: the
neighbors `a` (success rate 1) and `b` (success rate 0) are displayed as
`a`, `b`. -/
theorem getNeighborDisplayData_own_successRate :
    (getNeighborDisplayData
      { upstream := .val [neighborOf "a" 1, neighborOf "b" 0],
        downstream := .undefined }).upstreams.displayed =
      [neighborOf "a" 1, neighborOf "b" 0] := by
  rw [getNeighborDisplayData_upstreams]
  have hs : sortBy (.val [neighborOf "a" 1, neighborOf "b" 0]) resourceSuccessRate =
      [neighborOf "a" 1, neighborOf "b" 0] := by
    apply sortBy_of_key_undefined
    intro x hx
    simp only [List.mem_cons, List.mem_singleton, List.not_mem_nil, or_false] at hx
    rcases hx with rfl | rfl <;> exact resourceSuccessRate_of_absent _ rfl
  simp only [hs]
  rfl

/-- C1, as amended. For every neighbor list `L`, placed on the upstream or on
the downstream side and whatever the other side holds, `getNeighborDisplayData`
yields the same plan. `displayed ++ collapsed` is a rearrangement of `L` (the
list `_.sortBy` returned), `displayed` is its first `min(|L|, 6)` entries and
`collapsed` the remaining ones in the same order. `|displayed| = min(|L|, 6)`,
which is `6` exactly when `|L| ≥ 6` (in particular whenever `|L| > 6`), and
`collapsed` is empty exactly when `|L| ≤ 6`, in which case `displayed` is the
whole list. -/
theorem getNeighborDisplayData_plan (L : List Resource) (other : JsOpt (List Resource)) :
    (getNeighborDisplayData { upstream := other, downstream := .val L }).downstreams =
      (getNeighborDisplayData { upstream := .val L, downstream := other }).upstreams ∧
    ((getNeighborDisplayData { upstream := .val L, downstream := other }).upstreams.displayed ++
      (getNeighborDisplayData { upstream := .val L, downstream := other }).upstreams.collapsed).Perm
      L ∧
    (getNeighborDisplayData { upstream := .val L, downstream := other }).upstreams.displayed =
      ((getNeighborDisplayData { upstream := .val L, downstream := other }).upstreams.displayed ++
        (getNeighborDisplayData { upstream := .val L, downstream := other }).upstreams.collapsed).take
        (min L.length 6) ∧
    (getNeighborDisplayData { upstream := .val L, downstream := other }).upstreams.collapsed =
      ((getNeighborDisplayData { upstream := .val L, downstream := other }).upstreams.displayed ++
        (getNeighborDisplayData { upstream := .val L, downstream := other }).upstreams.collapsed).drop
        (min L.length 6) ∧
    (getNeighborDisplayData { upstream := .val L, downstream := other }).upstreams.displayed.length =
      min L.length 6 ∧
    (getNeighborDisplayData { upstream := .val L, downstream := other }).upstreams.collapsed.length =
      L.length - 6 ∧
    ((getNeighborDisplayData { upstream := .val L, downstream := other }).upstreams.displayed.length = 6
      ↔ 6 ≤ L.length) ∧
    (L.length > 6 →
      (getNeighborDisplayData { upstream := .val L, downstream := other }).upstreams.displayed.length
        = 6) ∧
    ((getNeighborDisplayData { upstream := .val L, downstream := other }).upstreams.collapsed = []
      ↔ L.length ≤ 6) ∧
    (L.length ≤ 6 →
      (getNeighborDisplayData { upstream := .val L, downstream := other }).upstreams.displayed =
        (getNeighborDisplayData { upstream := .val L, downstream := other }).upstreams.displayed ++
          (getNeighborDisplayData { upstream := .val L, downstream := other }).upstreams.collapsed)
    := by
  have hlen := sortBy_length resourceSuccessRate L
  rw [getNeighborDisplayData_upstreams, getNeighborDisplayData_downstreams]
  simp only [List.take_append_drop]
  have hmin : List.take (min L.length 6) (sortBy (.val L) resourceSuccessRate) =
      List.take 6 (sortBy (.val L) resourceSuccessRate) := by
    rcases le_total L.length 6 with h | h
    · rw [min_eq_left h, List.take_of_length_le (by omega), List.take_of_length_le (by omega)]
    · rw [min_eq_right h]
  have hmin2 : List.drop (min L.length 6) (sortBy (.val L) resourceSuccessRate) =
      List.drop 6 (sortBy (.val L) resourceSuccessRate) := by
    rcases le_total L.length 6 with h | h
    · rw [min_eq_left h, List.drop_of_length_le (by omega), List.drop_of_length_le (by omega)]
    · rw [min_eq_right h]
  refine ⟨trivial, sortBy_perm _ _, hmin.symm, hmin2.symm, ?_, ?_, ?_, ?_, ?_, ?_⟩
  · rw [List.length_take, hlen, min_comm]
  · rw [List.length_drop, hlen]
  · rw [List.length_take, hlen]; omega
  · intro h; rw [List.length_take, hlen]; omega
  · rw [List.drop_eq_nil_iff, hlen]
  · intro h; exact List.take_of_length_le (by omega)

/-- C1, counterexample. With exactly six neighbors nothing is collapsed, so six
cards are displayed although the list does not hold more than six entries:
`|displayed| = 6` does not hold exactly when `|L| > 6`. -/
theorem getNeighborDisplayData_six_neighbors :
    ¬ ((getNeighborDisplayData
          { upstream := .val sixNeighbors, downstream := .undefined }).upstreams.displayed.length = 6
        ↔ sixNeighbors.length > 6) := by
  intro h
  have h6 : sixNeighbors.length = 6 := rfl
  have hd := (getNeighborDisplayData_upstreams
    { upstream := .val sixNeighbors, downstream := .undefined })
  have hl : (getNeighborDisplayData
      { upstream := .val sixNeighbors, downstream := .undefined }).upstreams.displayed.length = 6 := by
    rw [hd]
    simp only []
    rw [List.length_take, sortBy_length, h6]
    rfl
  have := h.mp hl
  omega

/-! ## `renderArrowCol` -/

theorem arrowAt_inboundType (n i : ℕ) :
    (arrowAt n i).inboundType = swapUpDown (arrowAt n i).type := by
  unfold arrowAt
  simp only []
  split_ifs <;> rfl

theorem arrowTypes_one : arrowTypes 1 = [{ type := .flat, inboundType := .flat, height := 180 }] := by
  have h := arrowAt_odd 0 0
  simp only [Nat.mul_zero, Nat.zero_add, lt_self_iff_false, if_false, if_true] at h
  simp [arrowTypes, List.range_succ, h]

/-- C2. For every `numNeighbors ≥ 1` and every slot `i < numNeighbors`, the
geometry `renderArrowCol` computes for slot `i` is "flat" for the outbound and
for the inbound direction if and only if `numNeighbors` is odd and
`i = (numNeighbors - 1) / 2`; a flat slot has height 180; the arm drawn for
the slot in either direction carries that shape and height; an odd
`numNeighbors` has exactly one flat slot; and `numNeighbors = 1` gives
exactly one arm, flat, of height 180. -/
theorem renderArrowCol_flat_iff (numNeighbors i : ℕ) (hn : 1 ≤ numNeighbors)
    (hi : i < numNeighbors) :
    (∃ a, (arrowTypes numNeighbors)[i]? = some a ∧
      (a.type = .flat ↔ numNeighbors % 2 = 1 ∧ i = (numNeighbors - 1) / 2) ∧
      (a.inboundType = .flat ↔ numNeighbors % 2 = 1 ∧ i = (numNeighbors - 1) / 2) ∧
      (a.type = .flat → a.height = 180) ∧
      ∀ isOutbound : Bool, (arms (renderArrowCol numNeighbors isOutbound))[i]? = some
        { arrowType := if isOutbound then a.type else a.inboundType, width := 75,
          height := (numNeighbors : ℚ) * 180, arrowHeight := a.height,
          isOutbound := isOutbound }) ∧
    (numNeighbors % 2 = 1 →
      ∃! j, j < numNeighbors ∧ ∃ a, (arrowTypes numNeighbors)[j]? = some a ∧ a.type = .flat) ∧
    (∀ isOutbound : Bool, arms (renderArrowCol 1 isOutbound) =
      [{ arrowType := .flat, width := 75, height := 180, arrowHeight := 180,
         isOutbound := isOutbound }]) := by
  refine ⟨⟨arrowAt numNeighbors i, arrowTypes_getElem? _ _ hi, (arrowAt_flat_iff _ _).1,
    (arrowAt_flat_iff _ _).2.1, (arrowAt_flat_iff _ _).2.2,
    fun b => arms_getElem? _ _ b hi⟩, ?_, ?_⟩
  · intro hodd
    refine ⟨(numNeighbors - 1) / 2, ⟨by omega, arrowAt numNeighbors ((numNeighbors - 1) / 2),
      arrowTypes_getElem? _ _ (by omega), (arrowAt_flat_iff _ _).1.mpr ⟨hodd, rfl⟩⟩, ?_⟩
    rintro j ⟨hj, a, ha, hflat⟩
    rw [arrowTypes_getElem? _ _ hj] at ha
    cases ha
    exact ((arrowAt_flat_iff _ _).1.mp hflat).2
  · intro b
    rw [arms_renderArrowCol, arrowTypes_one]
    cases b <;> simp

/-- C2, at an instance: five neighbors, slot 2. -/
theorem renderArrowCol_flat_iff_five :
    1 ≤ 5 ∧ 2 < 5 ∧
    (∃ a, (arrowTypes 5)[2]? = some a ∧
      (a.type = .flat ↔ 5 % 2 = 1 ∧ 2 = (5 - 1) / 2) ∧
      (a.inboundType = .flat ↔ 5 % 2 = 1 ∧ 2 = (5 - 1) / 2) ∧
      (a.type = .flat → a.height = 180) ∧
      ∀ isOutbound : Bool, (arms (renderArrowCol 5 isOutbound))[2]? = some
        { arrowType := if isOutbound then a.type else a.inboundType, width := 75,
          height := ((5 : ℕ) : ℚ) * 180, arrowHeight := a.height,
          isOutbound := isOutbound }) ∧
    (5 % 2 = 1 →
      ∃! j, j < 5 ∧ ∃ a, (arrowTypes 5)[j]? = some a ∧ a.type = .flat) ∧
    (∀ isOutbound : Bool, arms (renderArrowCol 1 isOutbound) =
      [{ arrowType := .flat, width := 75, height := 180, arrowHeight := 180,
         isOutbound := isOutbound }]) :=
  ⟨by decide, by decide, renderArrowCol_flat_iff 5 2 (by decide) (by decide)⟩

theorem arms_types_even (k : ℕ) (b : Bool) :
    (arms (renderArrowCol (2 * k) b)).map (fun arm => arm.arrowType) =
      List.replicate k (if b then ArrowType.up else ArrowType.down) ++
        List.replicate k (if b then ArrowType.down else ArrowType.up) := by
  rw [arms_renderArrowCol, arrowTypes, two_mul, List.range_add]
  simp only [List.map_append, List.map_map]
  congr 1
  · rw [List.eq_replicate_iff]
    refine ⟨by simp, ?_⟩
    intro t ht
    obtain ⟨i, hi, rfl⟩ := List.mem_map.mp ht
    have hik : i < k := List.mem_range.mp hi
    simp only [Function.comp, ← two_mul, arrowAt_even, if_pos hik]
  · rw [List.eq_replicate_iff]
    refine ⟨by simp, ?_⟩
    intro t ht
    obtain ⟨i, _, rfl⟩ := List.mem_map.mp ht
    have hik : ¬ k + i < k := by omega
    simp only [Function.comp, ← two_mul, arrowAt_even, if_neg hik]

/-- C3. For every even `numNeighbors ≥ 2`, `renderArrowCol` draws no "flat"
arm: slots `0 .. numNeighbors/2 - 1` get the upper shape (outbound "up",
inbound "down") and slots `numNeighbors/2 .. numNeighbors - 1` the lower
shape (outbound "down", inbound "up"), so in either direction exactly
`numNeighbors/2` arms are "up", `numNeighbors/2` are "down" and none is
"flat". For `numNeighbors = 4` the outbound shapes are up, up, down, down. -/
theorem renderArrowCol_even (numNeighbors : ℕ) (hn : 2 ≤ numNeighbors)
    (he : numNeighbors % 2 = 0) :
    (arms (renderArrowCol numNeighbors true)).map (fun arm => arm.arrowType) =
      List.replicate (numNeighbors / 2) ArrowType.up ++
        List.replicate (numNeighbors / 2) ArrowType.down ∧
    (arms (renderArrowCol numNeighbors false)).map (fun arm => arm.arrowType) =
      List.replicate (numNeighbors / 2) ArrowType.down ++
        List.replicate (numNeighbors / 2) ArrowType.up ∧
    (∀ isOutbound : Bool, ∀ i, i < numNeighbors →
      ∃ arm, (arms (renderArrowCol numNeighbors isOutbound))[i]? = some arm ∧
        arm.arrowType ≠ .flat ∧
        (i < numNeighbors / 2 → arm.arrowType = if isOutbound then .up else .down) ∧
        (numNeighbors / 2 ≤ i → arm.arrowType = if isOutbound then .down else .up)) ∧
    (∀ isOutbound : Bool,
      ((arms (renderArrowCol numNeighbors isOutbound)).map (fun arm => arm.arrowType)).count .up
        = numNeighbors / 2 ∧
      ((arms (renderArrowCol numNeighbors isOutbound)).map (fun arm => arm.arrowType)).count .down
        = numNeighbors / 2 ∧
      ((arms (renderArrowCol numNeighbors isOutbound)).map (fun arm => arm.arrowType)).count .flat
        = 0) ∧
    (arms (renderArrowCol 4 true)).map (fun arm => arm.arrowType) = [.up, .up, .down, .down] ∧
    (arms (renderArrowCol 4 false)).map (fun arm => arm.arrowType) = [.down, .down, .up, .up] := by
  obtain ⟨k, rfl⟩ : ∃ k, numNeighbors = 2 * k := ⟨numNeighbors / 2, by omega⟩
  have hk : 2 * k / 2 = k := by omega
  rw [hk]
  refine ⟨arms_types_even k true, arms_types_even k false, ?_, ?_,
    arms_types_even 2 true, arms_types_even 2 false⟩
  · intro b i hi
    refine ⟨_, arms_getElem? _ _ b hi, ?_, ?_, ?_⟩
    · simp only [arrowAt_even]
      cases b <;> split_ifs <;> simp
    · intro h
      simp only [arrowAt_even, if_pos h]
    · intro h
      have h2 : ¬ i < k := by omega
      simp only [arrowAt_even, if_neg h2]
  · intro b
    rw [arms_types_even]
    cases b <;> simp [List.count_replicate]

/-- C3, at an instance: six neighbors. -/
theorem renderArrowCol_even_six :
    2 ≤ 6 ∧ 6 % 2 = 0 ∧
    (arms (renderArrowCol 6 true)).map (fun arm => arm.arrowType) =
      List.replicate (6 / 2) ArrowType.up ++ List.replicate (6 / 2) ArrowType.down ∧
    (arms (renderArrowCol 6 false)).map (fun arm => arm.arrowType) =
      List.replicate (6 / 2) ArrowType.down ++ List.replicate (6 / 2) ArrowType.up ∧
    (∀ isOutbound : Bool, ∀ i, i < 6 →
      ∃ arm, (arms (renderArrowCol 6 isOutbound))[i]? = some arm ∧
        arm.arrowType ≠ .flat ∧
        (i < 6 / 2 → arm.arrowType = if isOutbound then .up else .down) ∧
        (6 / 2 ≤ i → arm.arrowType = if isOutbound then .down else .up)) ∧
    (∀ isOutbound : Bool,
      ((arms (renderArrowCol 6 isOutbound)).map (fun arm => arm.arrowType)).count .up = 6 / 2 ∧
      ((arms (renderArrowCol 6 isOutbound)).map (fun arm => arm.arrowType)).count .down = 6 / 2 ∧
      ((arms (renderArrowCol 6 isOutbound)).map (fun arm => arm.arrowType)).count .flat = 0) ∧
    (arms (renderArrowCol 4 true)).map (fun arm => arm.arrowType) = [.up, .up, .down, .down] ∧
    (arms (renderArrowCol 4 false)).map (fun arm => arm.arrowType) = [.down, .down, .up, .up] :=
  ⟨by decide, by decide, renderArrowCol_even 6 (by decide) (by decide)⟩

theorem arrowTypes_three :
    arrowTypes 3 =
      [{ type := .up, inboundType := .down, height := 90 },
       { type := .flat, inboundType := .flat, height := 180 },
       { type := .down, inboundType := .up, height := 90 }] := by
  have h0 := arrowAt_odd 1 0
  have h1 := arrowAt_odd 1 1
  have h2 := arrowAt_odd 1 2
  norm_num at h0 h1 h2
  simp [arrowTypes, List.range_succ, h0, h1, h2]

/-- C4. For every `numNeighbors`, slot by slot, the shape `renderArrowCol`
draws for the inbound direction is the outbound shape with "up" and "down"
exchanged and "flat" unchanged, and the slot's height is the same in both
directions. At `numNeighbors = 3` the outbound slots are (up, 90),
(flat, 180), (down, 90) and the inbound slots (down, 90), (flat, 180),
(up, 90). -/
theorem renderArrowCol_inbound_swap (numNeighbors : ℕ) :
    (arms (renderArrowCol numNeighbors false)).map (fun arm => (arm.arrowType, arm.arrowHeight)) =
      (arms (renderArrowCol numNeighbors true)).map
        (fun arm => (swapUpDown arm.arrowType, arm.arrowHeight)) ∧
    (arms (renderArrowCol 3 true)).map (fun arm => (arm.arrowType, arm.arrowHeight)) =
      [(.up, 90), (.flat, 180), (.down, 90)] ∧
    (arms (renderArrowCol 3 false)).map (fun arm => (arm.arrowType, arm.arrowHeight)) =
      [(.down, 90), (.flat, 180), (.up, 90)] := by
  refine ⟨?_, ?_, ?_⟩
  · rw [arms_renderArrowCol, arms_renderArrowCol, arrowTypes]
    simp only [List.map_map]
    apply List.map_congr_left
    intro i _
    simp [arrowAt_inboundType]
  · rw [arms_renderArrowCol, arrowTypes_three]
    simp
  · rw [arms_renderArrowCol, arrowTypes_three]
    simp

/-- C5. For either direction, `renderArrowCol(0, isOutbound)` computes an
empty sequence of arrow geometries and returns `null`; for every
`numNeighbors ≥ 1` it returns an arrow strip, with one arm per slot. So no
strip is returned if and only if `numNeighbors = 0`. -/
theorem renderArrowCol_none_iff (numNeighbors : ℕ) (isOutbound : Bool) :
    arrowTypes 0 = [] ∧
    renderArrowCol 0 isOutbound = none ∧
    (1 ≤ numNeighbors →
      ∃ svg, renderArrowCol numNeighbors isOutbound = some svg ∧
        svg.arms.length = numNeighbors ∧ svg.height = (numNeighbors : ℚ) * 180) ∧
    (renderArrowCol numNeighbors isOutbound = none ↔ numNeighbors = 0) := by
  refine ⟨rfl, by simp [renderArrowCol], ?_, ?_⟩
  · intro h
    have hpos : 0 < numNeighbors := h
    simp [renderArrowCol, hpos, arrowTypes]
  · rcases Nat.eq_zero_or_pos numNeighbors with h | h
    · subst h
      simp [renderArrowCol]
    · have h0 : numNeighbors ≠ 0 := by omega
      simp [renderArrowCol, h, h0]

theorem arrowAt_height_formula (n i : ℕ) (hflat : (arrowAt n i).type ≠ .flat) :
    (arrowAt n i).height =
        (((⌈|(i : ℚ) - ((n : ℚ) - 1) / 2|⌉ : ℤ) : ℚ) - 1) * 180 + 90 ∧
    (n % 2 = 0 → (arrowAt n i).height = ((90 * |2 * (i : ℤ) - ((n : ℤ) - 1)| : ℤ) : ℚ)) ∧
    (n % 2 = 1 → (arrowAt n i).height = ((90 * |2 * (i : ℤ) - ((n : ℤ) - 1)| - 90 : ℤ) : ℚ)) := by
  rcases Nat.even_or_odd' n with ⟨k, rfl | rfl⟩
  · rw [arrowAt_even]
    by_cases h : i < k
    · have hq : (i : ℚ) + 1 ≤ k := by exact_mod_cast h
      have hz : (i : ℤ) + 1 ≤ k := by exact_mod_cast h
      have habs : |(i : ℚ) - (((2 * k : ℕ) : ℚ) - 1) / 2| = (k : ℚ) - i - 1 / 2 := by
        rw [abs_of_nonpos (by push_cast; linarith)]
        push_cast; ring
      have hc : ⌈(k : ℚ) - i - 1 / 2⌉ = (k : ℤ) - i := by
        rw [Int.ceil_eq_iff]
        push_cast
        constructor <;> linarith
      have habz : |2 * (i : ℤ) - (((2 * k : ℕ) : ℤ) - 1)| = 2 * (k : ℤ) - 2 * i - 1 := by
        rw [abs_of_nonpos (by push_cast; linarith)]
        push_cast; ring
      rw [if_pos h, habs, hc, habz]
      refine ⟨by push_cast; ring, fun _ => by push_cast; ring, fun h1 => by omega⟩
    · have hq : (k : ℚ) ≤ i := by exact_mod_cast not_lt.mp h
      have hz : (k : ℤ) ≤ i := by exact_mod_cast not_lt.mp h
      have habs : |(i : ℚ) - (((2 * k : ℕ) : ℚ) - 1) / 2| = (i : ℚ) - k + 1 / 2 := by
        rw [abs_of_nonneg (by push_cast; linarith)]
        push_cast; ring
      have hc : ⌈(i : ℚ) - k + 1 / 2⌉ = (i : ℤ) - k + 1 := by
        rw [Int.ceil_eq_iff]
        push_cast
        constructor <;> linarith
      have habz : |2 * (i : ℤ) - (((2 * k : ℕ) : ℤ) - 1)| = 2 * (i : ℤ) - 2 * k + 1 := by
        rw [abs_of_nonneg (by push_cast; linarith)]
        push_cast; ring
      rw [if_neg h, habs, hc, habz]
      refine ⟨by push_cast; ring, fun _ => by push_cast; ring, fun h1 => by omega⟩
  · rw [arrowAt_odd] at hflat ⊢
    by_cases h : i < k
    · have hq : (i : ℚ) + 1 ≤ k := by exact_mod_cast h
      have hz : (i : ℤ) + 1 ≤ k := by exact_mod_cast h
      have habs : |(i : ℚ) - (((2 * k + 1 : ℕ) : ℚ) - 1) / 2| = (k : ℚ) - i := by
        rw [abs_of_nonpos (by push_cast; linarith)]
        push_cast; ring
      have hc : ⌈(k : ℚ) - i⌉ = (k : ℤ) - i := by
        rw [Int.ceil_eq_iff]
        push_cast
        constructor <;> linarith
      have habz : |2 * (i : ℤ) - (((2 * k + 1 : ℕ) : ℤ) - 1)| = 2 * (k : ℤ) - 2 * i := by
        rw [abs_of_nonpos (by push_cast; linarith)]
        push_cast; ring
      rw [if_pos h, habs, hc, habz]
      refine ⟨by push_cast; ring, fun h1 => by omega, fun _ => by push_cast; ring⟩
    · rw [if_neg h] at hflat ⊢
      by_cases h2 : i = k
      · rw [if_pos h2] at hflat
        exact absurd rfl hflat
      · have hlt : k + 1 ≤ i := by omega
        have hq : (k : ℚ) + 1 ≤ i := by exact_mod_cast hlt
        have hz : (k : ℤ) + 1 ≤ i := by exact_mod_cast hlt
        have habs : |(i : ℚ) - (((2 * k + 1 : ℕ) : ℚ) - 1) / 2| = (i : ℚ) - k := by
          rw [abs_of_nonneg (by push_cast; linarith)]
          push_cast; ring
        have hc : ⌈(i : ℚ) - k⌉ = (i : ℤ) - k := by
          rw [Int.ceil_eq_iff]
          push_cast
          constructor <;> linarith
        have habz : |2 * (i : ℤ) - (((2 * k + 1 : ℕ) : ℤ) - 1)| = 2 * (i : ℤ) - 2 * k := by
          rw [abs_of_nonneg (by push_cast; linarith)]
          push_cast; ring
        rw [if_neg h2, habs, hc, habz]
        refine ⟨by push_cast; ring, fun h1 => by omega, fun _ => by push_cast; ring⟩

theorem arrowAt_height_mirror (n i : ℕ) (hi : i < n) :
    (arrowAt n (n - 1 - i)).height = (arrowAt n i).height := by
  rcases Nat.even_or_odd' n with ⟨k, rfl | rfl⟩
  · rw [arrowAt_even, arrowAt_even]
    by_cases h : i < k
    · have h2 : ¬ 2 * k - 1 - i < k := by omega
      have hc : ((2 * k - 1 - i : ℕ) : ℚ) = 2 * (k : ℚ) - 1 - i := by
        rw [Nat.cast_sub (by omega), Nat.cast_sub (by omega)]
        push_cast; ring
      rw [if_pos h, if_neg h2]
      simp only [hc]
      ring
    · have h2 : 2 * k - 1 - i < k := by omega
      have hc : ((2 * k - 1 - i : ℕ) : ℚ) = 2 * (k : ℚ) - 1 - i := by
        rw [Nat.cast_sub (by omega), Nat.cast_sub (by omega)]
        push_cast; ring
      rw [if_neg h, if_pos h2]
      simp only [hc]
      ring
  · rw [arrowAt_odd, arrowAt_odd]
    have hs : 2 * k + 1 - 1 - i = 2 * k - i := by omega
    have hc : ((2 * k - i : ℕ) : ℚ) = 2 * (k : ℚ) - i := by
      rw [Nat.cast_sub (by omega)]
      push_cast; ring
    rw [hs]
    rcases lt_trichotomy i k with h | h | h
    · have h2 : ¬ 2 * k - i < k := by omega
      have h3 : ¬ 2 * k - i = k := by omega
      rw [if_pos h, if_neg h2, if_neg h3]
      simp only [hc]
      ring
    · subst h
      have h2 : 2 * i - i = i := by omega
      rw [h2]
    · have h2 : 2 * k - i < k := by omega
      have h3 : ¬ i < k := by omega
      have h4 : ¬ i = k := by omega
      rw [if_pos h2, if_neg h3, if_neg h4]
      simp only [hc]
      ring

/-- C10. For every slot `i < numNeighbors` (so `numNeighbors ≥ 1`), with
`a` the geometry `renderArrowCol` computes for the slot (the height it draws
in either direction): when the slot is not flat, `a.height` is
`(ceil(|i - middleIndex|) - 1) * 180 + 90` with
`middleIndex = (numNeighbors - 1) / 2` an exact rational, which is
`90 * |2i - (numNeighbors - 1)|` for even and
`90 * |2i - (numNeighbors - 1)| - 90` for odd `numNeighbors`; and for every
slot, flat or not, the mirrored slot `numNeighbors - 1 - i` has the same
height. -/
theorem renderArrowCol_height (numNeighbors i : ℕ) (hi : i < numNeighbors) :
    ∃ a, (arrowTypes numNeighbors)[i]? = some a ∧
      (∀ isOutbound : Bool, ∃ arm,
        (arms (renderArrowCol numNeighbors isOutbound))[i]? = some arm ∧
          arm.arrowHeight = a.height) ∧
      (a.type ≠ .flat →
        a.height =
          (((⌈|(i : ℚ) - ((numNeighbors : ℚ) - 1) / 2|⌉ : ℤ) : ℚ) - 1) * 180 + 90) ∧
      (a.type ≠ .flat → numNeighbors % 2 = 0 →
        a.height = ((90 * |2 * (i : ℤ) - ((numNeighbors : ℤ) - 1)| : ℤ) : ℚ)) ∧
      (a.type ≠ .flat → numNeighbors % 2 = 1 →
        a.height = ((90 * |2 * (i : ℤ) - ((numNeighbors : ℤ) - 1)| - 90 : ℤ) : ℚ)) ∧
      ∃ a', (arrowTypes numNeighbors)[numNeighbors - 1 - i]? = some a' ∧
        a'.height = a.height := by
  refine ⟨arrowAt numNeighbors i, arrowTypes_getElem? _ _ hi,
    fun b => ⟨_, arms_getElem? _ _ b hi, rfl⟩,
    fun h => (arrowAt_height_formula _ _ h).1,
    fun h => (arrowAt_height_formula _ _ h).2.1,
    fun h => (arrowAt_height_formula _ _ h).2.2,
    arrowAt numNeighbors (numNeighbors - 1 - i), arrowTypes_getElem? _ _ (by omega),
    arrowAt_height_mirror _ _ hi⟩

/-- C10, at an instance: four neighbors, slot 0, of height 270. -/
theorem renderArrowCol_height_four :
    0 < 4 ∧
    ∃ a, (arrowTypes 4)[0]? = some a ∧
      (∀ isOutbound : Bool, ∃ arm,
        (arms (renderArrowCol 4 isOutbound))[0]? = some arm ∧ arm.arrowHeight = a.height) ∧
      (a.type ≠ .flat →
        a.height = (((⌈|((0 : ℕ) : ℚ) - (((4 : ℕ) : ℚ) - 1) / 2|⌉ : ℤ) : ℚ) - 1) * 180 + 90) ∧
      (a.type ≠ .flat → 4 % 2 = 0 →
        a.height = ((90 * |2 * ((0 : ℕ) : ℤ) - (((4 : ℕ) : ℤ) - 1)| : ℤ) : ℚ)) ∧
      (a.type ≠ .flat → 4 % 2 = 1 →
        a.height = ((90 * |2 * ((0 : ℕ) : ℤ) - (((4 : ℕ) : ℤ) - 1)| - 90 : ℤ) : ℚ)) ∧
      ∃ a', (arrowTypes 4)[4 - 1 - 0]? = some a' ∧ a'.height = a.height :=
  ⟨by decide, renderArrowCol_height 4 0 (by decide)⟩

/-! ## `render` and `linkedResourceTitle` -/

theorem length_child_ite {α : Type} (c : Bool) (x : α) :
    (child (if c = true then none else some x)).length = if c = true then 0 else 1 := by
  cases c <;> rfl

theorem length_arms (n : ℕ) (b : Bool) : (arms (renderArrowCol n b)).length = n := by
  rw [arms_renderArrowCol]
  simp [arrowTypes]

theorem render_eq_some (u : Utils) (props : Props)
    (hres : isEmptyResource props.resource = false) :
    ∃ g, render u props = some g ∧
      g.upstreamCol =
        ((getNeighborDisplayData props.neighbors).upstreams.displayed.map
            fun n => Block.card (renderResourceCard u n "neighbor")) ++
          child (if isEmpty props.unmeshedSources = true then none
            else some (renderUnmeshedResources u props.unmeshedSources)) ++
          child (if isEmpty (getNeighborDisplayData props.neighbors).upstreams.collapsed = true
            then none
            else some (renderCollapsedNeighbors u
              (getNeighborDisplayData props.neighbors).upstreams.collapsed)) ∧
      g.inboundArrows = renderArrowCol
        (numUpstreams (getNeighborDisplayData props.neighbors) props.unmeshedSources) false ∧
      g.center = renderResourceCard u props.resource "main" ∧
      g.outboundArrows = renderArrowCol
        (numDownstreams (getNeighborDisplayData props.neighbors)) true ∧
      g.downstreamCol =
        ((getNeighborDisplayData props.neighbors).downstreams.displayed.map
            fun n => Block.card (renderResourceCard u n "neighbor")) ++
          child (if isEmpty (getNeighborDisplayData props.neighbors).downstreams.collapsed = true
            then none
            else some (renderCollapsedNeighbors u
              (getNeighborDisplayData props.neighbors).downstreams.collapsed)) := by
  simp only [render, hres, Bool.false_eq_true, if_false]
  exact ⟨_, rfl, rfl, rfl, rfl, rfl, rfl⟩

/-- C6. For every non-empty resource and every `neighbors` and
`unmeshedSources`, `render` returns a tree whose upstream column holds
`numUpstreams = |upstream.displayed| + (unmeshedSources non-empty ? 1 : 0) +
(upstream.collapsed non-empty ? 1 : 0)` blocks (the cards of the displayed
neighbors, then the unmeshed panel, then the collapsed panel), whose inbound
strip is `renderArrowCol(numUpstreams, false)` and shows exactly that many
arms; likewise the downstream column holds `numDownstreams =
|downstream.displayed| + (downstream.collapsed non-empty ? 1 : 0)` blocks and
the outbound strip `renderArrowCol(numDownstreams, true)` that many arms. -/
theorem render_slot_counts (u : Utils) (props : Props)
    (hres : isEmptyResource props.resource = false) :
    ∃ g, render u props = some g ∧
      g.upstreamCol.length =
        (getNeighborDisplayData props.neighbors).upstreams.displayed.length +
          (if props.unmeshedSources = [] then 0 else 1) +
          (if (getNeighborDisplayData props.neighbors).upstreams.collapsed = [] then 0 else 1) ∧
      g.upstreamCol.length =
        numUpstreams (getNeighborDisplayData props.neighbors) props.unmeshedSources ∧
      g.inboundArrows = renderArrowCol
        (numUpstreams (getNeighborDisplayData props.neighbors) props.unmeshedSources) false ∧
      (arms g.inboundArrows).length = g.upstreamCol.length ∧
      g.downstreamCol.length =
        (getNeighborDisplayData props.neighbors).downstreams.displayed.length +
          (if (getNeighborDisplayData props.neighbors).downstreams.collapsed = [] then 0 else 1) ∧
      g.downstreamCol.length = numDownstreams (getNeighborDisplayData props.neighbors) ∧
      g.outboundArrows = renderArrowCol
        (numDownstreams (getNeighborDisplayData props.neighbors)) true ∧
      (arms g.outboundArrows).length = g.downstreamCol.length := by
  obtain ⟨g, hg, hucol, hin, _, hout, hdcol⟩ := render_eq_some u props hres
  have hup : g.upstreamCol.length =
      numUpstreams (getNeighborDisplayData props.neighbors) props.unmeshedSources := by
    rw [hucol]
    simp only [List.length_append, List.length_map, length_child_ite, numUpstreams, size]
  have hdown : g.downstreamCol.length =
      numDownstreams (getNeighborDisplayData props.neighbors) := by
    rw [hdcol]
    simp only [List.length_append, List.length_map, length_child_ite, numDownstreams, size]
  have hnumU : numUpstreams (getNeighborDisplayData props.neighbors) props.unmeshedSources =
      (getNeighborDisplayData props.neighbors).upstreams.displayed.length +
        (if props.unmeshedSources = [] then 0 else 1) +
        (if (getNeighborDisplayData props.neighbors).upstreams.collapsed = [] then 0 else 1) := by
    simp [numUpstreams, size, isEmpty]
  have hnumD : numDownstreams (getNeighborDisplayData props.neighbors) =
      (getNeighborDisplayData props.neighbors).downstreams.displayed.length +
        (if (getNeighborDisplayData props.neighbors).downstreams.collapsed = [] then 0 else 1) := by
    simp [numDownstreams, size, isEmpty]
  refine ⟨g, hg, ?_, hup, hin, ?_, ?_, hdown, hout, ?_⟩
  · rw [hup, hnumU]
  · rw [hin, length_arms, hup]
  · rw [hdown, hnumD]
  · rw [hout, length_arms, hdown]

/-- C6, at an instance: seven upstream and six downstream neighbors around a
resource, with unmeshed sources. -/
theorem render_slot_counts_sample :
    isEmptyResource sampleProps.resource = false ∧
    ∃ g, render sampleUtils sampleProps = some g ∧
      g.upstreamCol.length =
        (getNeighborDisplayData sampleProps.neighbors).upstreams.displayed.length +
          (if sampleProps.unmeshedSources = [] then 0 else 1) +
          (if (getNeighborDisplayData sampleProps.neighbors).upstreams.collapsed = []
            then 0 else 1) ∧
      g.upstreamCol.length =
        numUpstreams (getNeighborDisplayData sampleProps.neighbors) sampleProps.unmeshedSources ∧
      g.inboundArrows = renderArrowCol
        (numUpstreams (getNeighborDisplayData sampleProps.neighbors)
          sampleProps.unmeshedSources) false ∧
      (arms g.inboundArrows).length = g.upstreamCol.length ∧
      g.downstreamCol.length =
        (getNeighborDisplayData sampleProps.neighbors).downstreams.displayed.length +
          (if (getNeighborDisplayData sampleProps.neighbors).downstreams.collapsed = []
            then 0 else 1) ∧
      g.downstreamCol.length = numDownstreams (getNeighborDisplayData sampleProps.neighbors) ∧
      g.outboundArrows = renderArrowCol
        (numDownstreams (getNeighborDisplayData sampleProps.neighbors)) true ∧
      (arms g.outboundArrows).length = g.downstreamCol.length :=
  ⟨by decide, render_slot_counts sampleUtils sampleProps (by decide)⟩

/-- C7. `render` returns `null` if and only if the resource is empty, that is
the object `{}` without any own key (the default of the `resource` prop),
whatever `neighbors` and `unmeshedSources` are; for every non-empty resource
it returns a tree whose center is the card of the resource. A resource with
any own key is not empty: `{ type: "deployment" }` and `{ name: undefined }`
are rendered. -/
theorem render_none_iff (u : Utils) (props : Props) :
    (render u props = none ↔ isEmptyResource props.resource = true) ∧
    (isEmptyResource props.resource = true ↔ props.resource = defaultProps.resource) ∧
    render u { props with resource := defaultProps.resource } = none ∧
    (isEmptyResource props.resource = false →
      ∃ g, render u props = some g ∧ g.center = renderResourceCard u props.resource "main") ∧
    (∃ g, render u { props with resource := { emptyResource with otherKeys := ["type"] } }
      = some g) ∧
    (∃ g, render u { props with
        resource := { emptyResource with name := .present .undefined } } = some g) := by
  refine ⟨?_, ?_, ?_, ?_, ?_, ?_⟩
  · cases h : isEmptyResource props.resource <;> simp [render, h]
  · obtain ⟨neighbors, ⟨⟨name, ns, rate, rps, lat⟩, res, others⟩, unmeshed⟩ := props
    simp [isEmptyResource, defaultProps, emptyResource]
    tauto
  · have h : isEmptyResource defaultProps.resource = true := by decide
    simp [render, h]
  · intro h
    simp [render, h]
  · have h : isEmptyResource { emptyResource with otherKeys := ["type"] } = false := by decide
    simp [render, h]
  · have h : isEmptyResource { emptyResource with name := .present .undefined } = false := by
      decide
    simp [render, h]

/-- C8. However many neighbors and unmeshed sources are supplied, at most 6
cards are displayed per side, the slot count passed to the inbound strip is
at most 8 and the one passed to the outbound strip at most 7, so the strips
`render` places, when there are any, are at most 1440 and 1260 pixels high. -/
theorem render_height_bounded (u : Utils) (props : Props) :
    (getNeighborDisplayData props.neighbors).upstreams.displayed.length ≤ 6 ∧
    (getNeighborDisplayData props.neighbors).downstreams.displayed.length ≤ 6 ∧
    numUpstreams (getNeighborDisplayData props.neighbors) props.unmeshedSources ≤ 8 ∧
    numDownstreams (getNeighborDisplayData props.neighbors) ≤ 7 ∧
    (∀ svg, renderArrowCol
        (numUpstreams (getNeighborDisplayData props.neighbors) props.unmeshedSources) false
          = some svg →
      svg.height =
        (numUpstreams (getNeighborDisplayData props.neighbors) props.unmeshedSources : ℚ) * 180 ∧
      svg.height ≤ 1440) ∧
    (∀ svg, renderArrowCol (numDownstreams (getNeighborDisplayData props.neighbors)) true
          = some svg →
      svg.height = (numDownstreams (getNeighborDisplayData props.neighbors) : ℚ) * 180 ∧
      svg.height ≤ 1260) ∧
    (∀ g, render u props = some g →
      (∀ svg, g.inboundArrows = some svg → svg.height ≤ 1440) ∧
      (∀ svg, g.outboundArrows = some svg → svg.height ≤ 1260)) := by
  have hu : (getNeighborDisplayData props.neighbors).upstreams.displayed.length ≤ 6 := by
    rw [getNeighborDisplayData_upstreams]
    simp only [List.length_take]
    omega
  have hd : (getNeighborDisplayData props.neighbors).downstreams.displayed.length ≤ 6 := by
    rw [getNeighborDisplayData_downstreams]
    simp only [List.length_take]
    omega
  have hnu : numUpstreams (getNeighborDisplayData props.neighbors) props.unmeshedSources ≤ 8 := by
    simp only [numUpstreams, size]
    split_ifs <;> omega
  have hnd : numDownstreams (getNeighborDisplayData props.neighbors) ≤ 7 := by
    simp only [numDownstreams, size]
    split_ifs <;> omega
  have hsvg : ∀ (n : ℕ) (b : Bool) (svg : Svg), renderArrowCol n b = some svg →
      svg.height = (n : ℚ) * 180 := by
    intro n b svg h
    by_cases hn : n > 0
    · simp only [renderArrowCol, hn, decide_True, Bool.not_true, Bool.false_eq_true, if_false,
        Option.some.injEq] at h
      rw [← h]
    · simp [renderArrowCol, hn] at h
  have hin : ∀ svg, renderArrowCol
        (numUpstreams (getNeighborDisplayData props.neighbors) props.unmeshedSources) false
          = some svg →
      svg.height =
        (numUpstreams (getNeighborDisplayData props.neighbors) props.unmeshedSources : ℚ) * 180 ∧
      svg.height ≤ 1440 := by
    intro svg h
    have hq : (numUpstreams (getNeighborDisplayData props.neighbors)
        props.unmeshedSources : ℚ) ≤ 8 := by exact_mod_cast hnu
    refine ⟨hsvg _ _ _ h, ?_⟩
    rw [hsvg _ _ _ h]
    linarith
  have hout : ∀ svg, renderArrowCol (numDownstreams (getNeighborDisplayData props.neighbors)) true
          = some svg →
      svg.height = (numDownstreams (getNeighborDisplayData props.neighbors) : ℚ) * 180 ∧
      svg.height ≤ 1260 := by
    intro svg h
    have hq : (numDownstreams (getNeighborDisplayData props.neighbors) : ℚ) ≤ 7 := by
      exact_mod_cast hnd
    refine ⟨hsvg _ _ _ h, ?_⟩
    rw [hsvg _ _ _ h]
    linarith
  refine ⟨hu, hd, hnu, hnd, hin, hout, ?_⟩
  intro g hg
  have hne : isEmptyResource props.resource = false := by
    cases h : isEmptyResource props.resource
    · rfl
    · simp [render, h] at hg
  obtain ⟨g', hg', _, hia, _, hoa, _⟩ := render_eq_some u props hne
  rw [hg] at hg'
  cases hg'
  refine ⟨fun svg h => ?_, fun svg h => ?_⟩
  · rw [hia] at h
    exact (hin svg h).2
  · rw [hoa] at h
    exact (hout svg h).2

/-- C9. For every resource and display label, `linkedResourceTitle` returns
the display label itself, unlinked, when `resource.namespace` is `undefined`
or `null`, and the link element built from the resource with the display
label as its link text when `resource.namespace` is present; the title of a
resource card is `linkedResourceTitle` at the display name of the resource. -/
theorem linkedResourceTitle_spec (resource : Resource) (display : String) :
    (resource.«namespace».read = .undefined ∨ resource.«namespace».read = .null →
      linkedResourceTitle resource display = .text display) ∧
    (∀ ns, resource.«namespace».read = .val ns →
      linkedResourceTitle resource display = .resourceLink resource display) ∧
    (∀ (u : Utils) (type : String),
      (renderResourceCard u resource type).heading =
        linkedResourceTitle resource (u.displayName resource) ∧
      (renderResourceCard u resource type).title = u.displayName resource) := by
  refine ⟨?_, ?_, fun u type => ⟨rfl, rfl⟩⟩
  · rintro (h | h) <;> simp [linkedResourceTitle, h, isNil]
  · intro ns h
    simp [linkedResourceTitle, h, isNil]

end Octopus
